import Mathlib

/-!
Shallow embedding of the document versioning subsystem of
`src/backend/src/api/v1/endpoints/documents.py`, together with the
`Document` model of `src/backend/src/models/document.py` and the
`DocumentUpdate` schema of `src/backend/src/schemas/document.py`.

Modelling conventions.  The relational table is a list of rows in
insertion (primary-key) order; `Query.first()` is `List.find?`, SQL
`ORDER BY` is a stable merge sort, and the SQLAlchemy comparison
`column == value` is `Option` equality (for a Python `None` argument
SQLAlchemy emits `IS NULL`, which `none = none` matches, and a non-null
argument never matches a NULL column, which `none = some x` matches).
The file store under `uploads/` is an association list from path to byte
content; writing prepends, and lookup takes the first match, giving
overwrite semantics.  The SHA-256 digest of `calculate_file_hash` is an
abstract parameter `H : Content → Nat`; no property below depends on the
internals of the digest.  Generated file names embed a wall-clock
timestamp, so they enter as an explicit `newPath` argument.  HTTP error
responses become an `Err` sum; a raised `HTTPException` aborts the
request before `db.commit()`, the session is rolled back, so an
`.error` result carries no state.
-/

namespace LabWeave

/-- Byte content of a stored file. -/
abbrev Content := List Nat

/-- One row of the `documents` table (`src/backend/src/models/document.py`).
The digest column `file_hash` (SHA-256 hex in the source) is a `Nat`. -/
structure Doc where
  id : Nat
  title : String
  description : Option String
  file_path : String
  file_type : String
  file_size : Nat
  mime_type : Option String
  document_type : Option String
  tags : List String
  extra_metadata : Option (List (String × String))
  project_id : Option Nat
  experiment_id : Option Nat
  uploaded_by : Nat
  version_number : Nat
  is_latest : Bool
  parent_document_id : Option Nat
  version_comment : Option String
  file_hash : Option Nat
deriving Repr, DecidableEq

/-- The `documents` table, rows in insertion order (`id` is the primary key,
so well-formed states have pairwise distinct `id`s). -/
abbrev DB := List Doc

/-- The upload directory: path-to-content association list, newest first. -/
abbrev FS := List (String × Content)

/-- HTTP error outcomes of the document endpoints. -/
inductive Err where
  /-- 404 "Document not found". -/
  | notFound
  /-- 404 "Version n not found" raised by `get_document_version`. -/
  | versionNotFound
  /-- 400 unsupported file type. -/
  | unsupportedType
  /-- 500 failure to save or copy a file. -/
  | storageError
deriving Repr, DecidableEq

/-- Supported omics file formats (`OMICS_FORMATS`). -/
def OMICS_FORMATS : List String :=
  [".fastq", ".fq", ".fastq.gz", ".fq.gz",
   ".fasta", ".fa", ".fna", ".fasta.gz",
   ".sam", ".bam",
   ".vcf", ".vcf.gz",
   ".bed", ".gff", ".gtf",
   ".nwk", ".tree", ".nxs",
   ".tsv", ".csv", ".txt",
   ".pdf"]

/-- Check whether a file type is supported (`is_valid_file_type`):
`filename.lower().endswith(fmt)` for some supported format.  Lowering and
the suffix test are spelled over character lists so that they compute by
reduction. -/
def is_valid_file_type (filename : String) : Bool :=
  OMICS_FORMATS.any (fun fmt => fmt.data.isSuffixOf (filename.data.map Char.toLower))

/-- Characters strictly after the last dot of a name, when a dot exists. -/
def afterLastDot (cs : List Char) : Option (List Char) :=
  match cs with
  | [] => none
  | c :: rest =>
    match afterLastDot rest with
    | some s => some s
    | none => if c = ('.') then some rest else none

/-- Extension of a file name, as CPython `PurePath(filename).suffix`: the
segment from the last dot on, empty when there is no dot or the dot is
the first or the last character of the name. -/
def suffixOf (filename : String) : String :=
  match afterLastDot filename.data with
  | none => ""
  | some s =>
    if s.length == 0 || s.length + 1 == filename.data.length then ""
    else String.mk (('.') :: s)

/-- Comma-separated tag parsing of `upload_document`; an absent or empty
(falsy) string yields no tags. -/
def parseTags (tags : Option String) : List String :=
  match tags with
  | none => []
  | some s => if s = "" then [] else (s.splitOn (",")).map String.trim

/-- Read a stored file: source side of `open(path)` and `shutil.copy2`. -/
def getBlob (fs : FS) (p : String) : Option Content :=
  (fs.find? (fun e => e.1 == p)).map Prod.snd

/-- Query `db.query(Document).filter(Document.id == i).first()`. -/
def findById (db : DB) (i : Nat) : Option Doc :=
  db.find? (fun d => d.id == i)

/-- Root id of a row's lineage: `parent_document_id` when set, else the
row's own id (`documents.py`, lines 225, 249, 444). -/
def resolveRoot (d : Doc) : Nat :=
  d.parent_document_id.getD d.id

/-- Rows of the lineage rooted at `root`: the filter
`(Document.id == root) | (Document.parent_document_id == root)`. -/
def lineageRows (db : DB) (root : Nat) : List Doc :=
  db.filter (fun d => d.id == root || d.parent_document_id == some root)

/-- Lineage rows currently flagged latest. -/
def latestOf (db : DB) (root : Nat) : List Doc :=
  (lineageRows db root).filter (fun d => d.is_latest)

/-- Lineage rows ordered by `ORDER BY version_number` (stable sort). -/
def sortedLineage (db : DB) (root : Nat) : List Doc :=
  (lineageRows db root).mergeSort
    (fun a b => decide (a.version_number ≤ b.version_number))

/-- Next autoincrement primary key for an insert. -/
def freshId (db : DB) : Nat :=
  db.foldr (fun d m => max d.id m) 0 + 1

/-- POST `/upload` (`upload_document`): create version 1 of a new lineage.
`H` stands for the SHA-256 digest of `calculate_file_hash`; `newPath` is
the timestamped path generated for the saved file; `mime` is the
client-supplied content type. -/
def uploadDocument (H : Content → Nat) (db : DB) (fs : FS)
    (filename : String) (content : Content) (mime : Option String)
    (title : String) (description : Option String)
    (document_type : Option String) (project_id : Nat)
    (experiment_id : Option Nat) (tags : Option String)
    (uploader : Nat) (newPath : String) :
    Except Err (DB × FS × Doc) :=
  if is_valid_file_type filename then
    let fs1 : FS := (newPath, content) :: fs
    let file_hash := H content
    let d : Doc :=
      { id := freshId db
        title := title
        description := description
        file_path := newPath
        file_type := suffixOf filename
        file_size := content.length
        mime_type := mime
        document_type := document_type
        tags := parseTags tags
        extra_metadata := none
        project_id := some project_id
        experiment_id := experiment_id
        uploaded_by := uploader
        version_number := 1
        is_latest := true
        parent_document_id := none
        version_comment := none
        file_hash := some file_hash }
    .ok (db ++ [d], fs1, d)
  else .error .unsupportedType

/-- POST `/{document_id}/versions` (`upload_new_version`): branch a new
version.  The source row is found by
`filter(Document.id == document_id, Document.is_latest == True).first()`;
the new row copies its metadata, takes `version_number + 1`, points its
`parent_document_id` at `current_doc.parent_document_id or current_doc.id`,
and the found row's `is_latest` is flipped to false. -/
def uploadNewVersion (H : Content → Nat) (db : DB) (fs : FS)
    (document_id : Nat) (filename : String) (content : Content)
    (mime : Option String) (version_comment : Option String)
    (uploader : Nat) (newPath : String) :
    Except Err (DB × FS × Doc) :=
  match db.find? (fun d => d.id == document_id && d.is_latest) with
  | none => .error .notFound
  | some current_doc =>
    if is_valid_file_type filename then
      let new_version := current_doc.version_number + 1
      let fs1 : FS := (newPath, content) :: fs
      let file_hash := H content
      let new_doc : Doc :=
        { id := freshId db
          title := current_doc.title
          description := current_doc.description
          file_path := newPath
          file_type := suffixOf filename
          file_size := content.length
          mime_type := mime
          document_type := current_doc.document_type
          tags := current_doc.tags
          extra_metadata := current_doc.extra_metadata
          project_id := current_doc.project_id
          experiment_id := current_doc.experiment_id
          uploaded_by := uploader
          version_number := new_version
          is_latest := true
          parent_document_id := some (current_doc.parent_document_id.getD current_doc.id)
          version_comment := version_comment
          file_hash := some file_hash }
      let db1 : DB :=
        db.map (fun d => if d.id == current_doc.id then { d with is_latest := false } else d)
      .ok (db1 ++ [new_doc], fs1, new_doc)
    else .error .unsupportedType

/-- GET `/{document_id}/versions` (`get_document_versions`): resolve the
root from the addressed row, return the lineage ordered by version
number. -/
def getDocumentVersions (db : DB) (document_id : Nat) :
    Except Err (List Doc) :=
  match findById db document_id with
  | none => .error .notFound
  | some document => .ok (sortedLineage db (resolveRoot document))

/-- GET `/{document_id}/versions/{version_number}`
(`get_document_version`): resolve the root from the addressed row, then
take the first lineage row carrying the requested version number. -/
def getDocumentVersion (db : DB) (document_id : Nat)
    (version_number : Nat) : Except Err Doc :=
  match findById db document_id with
  | none => .error .notFound
  | some document =>
    let root_id := resolveRoot document
    match db.find? (fun d =>
        (d.id == root_id || d.parent_document_id == some root_id)
        && d.version_number == version_number) with
    | none => .error .versionNotFound
    | some v => .ok v

/-- POST `/{document_id}/restore/{version_number}`
(`restore_document_version`).  The current latest is looked up by
`parent_document_id == version_to_restore.parent_document_id` (for a root
target this compares against NULL) and, when found, is flipped; on a
missing current latest the new number falls back to
`version_to_restore.version_number + 1`.  The copy re-reads the target's
stored bytes (`shutil.copy2`; a missing source raises the 500 path before
commit) and the new row copies the target's metadata and `file_hash`
unchanged, with a system-generated comment. -/
def restoreDocumentVersion (db : DB) (fs : FS)
    (document_id : Nat) (version_number : Nat)
    (uploader : Nat) (newPath : String) :
    Except Err (DB × FS × Doc) :=
  match getDocumentVersion db document_id version_number with
  | .error e => .error e
  | .ok version_to_restore =>
    let current_latest := db.find? (fun d =>
      d.parent_document_id == version_to_restore.parent_document_id && d.is_latest)
    let new_version_number :=
      match current_latest with
      | some cl => cl.version_number + 1
      | none => version_to_restore.version_number + 1
    let db1 : DB :=
      match current_latest with
      | some cl =>
        db.map (fun d => if d.id == cl.id then { d with is_latest := false } else d)
      | none => db
    match getBlob fs version_to_restore.file_path with
    | none => .error .storageError
    | some content =>
      let fs1 : FS := (newPath, content) :: fs
      let restored_doc : Doc :=
        { id := freshId db
          title := version_to_restore.title
          description := version_to_restore.description
          file_path := newPath
          file_type := version_to_restore.file_type
          file_size := version_to_restore.file_size
          mime_type := version_to_restore.mime_type
          document_type := version_to_restore.document_type
          tags := version_to_restore.tags
          extra_metadata := version_to_restore.extra_metadata
          project_id := version_to_restore.project_id
          experiment_id := version_to_restore.experiment_id
          uploaded_by := uploader
          version_number := new_version_number
          is_latest := true
          parent_document_id := some (version_to_restore.parent_document_id.getD version_to_restore.id)
          version_comment := some ("Restored from version " ++ toString version_number)
          file_hash := version_to_restore.file_hash }
      .ok (db1 ++ [restored_doc], fs1, restored_doc)

/-- PATCH body (`DocumentUpdate` in `src/backend/src/schemas/document.py`):
these five optional fields are all the schema has; `none` stands for a
field absent from the request (`dict(exclude_unset=True)`). -/
structure DocumentUpdate where
  title : Option String := none
  description : Option String := none
  document_type : Option String := none
  tags : Option (List String) := none
  extra_metadata : Option (List (String × String)) := none
deriving Repr, DecidableEq

/-- The `setattr` loop of `update_document` over the provided fields. -/
def applyUpdate (d : Doc) (u : DocumentUpdate) : Doc :=
  { d with
    title := u.title.getD d.title
    description := match u.description with | some v => some v | none => d.description
    document_type := match u.document_type with | some v => some v | none => d.document_type
    tags := u.tags.getD d.tags
    extra_metadata := match u.extra_metadata with | some v => some v | none => d.extra_metadata }

/-- PATCH `/{document_id}` (`update_document`). -/
def updateDocument (db : DB) (document_id : Nat) (u : DocumentUpdate) :
    Except Err (DB × Doc) :=
  match findById db document_id with
  | none => .error .notFound
  | some document =>
    let document1 := applyUpdate document u
    .ok (db.map (fun d => if d.id == document_id then document1 else d), document1)

/-- DELETE `/{document_id}` (`delete_document`).  `removeOk p` says whether
`os.remove` succeeds on path `p`; a removal failure is only logged
(printed), and the row deletions commit regardless. -/
def deleteDocument (db : DB) (fs : FS) (removeOk : String → Bool)
    (document_id : Nat) (cascade : Bool) :
    Except Err (DB × FS × Nat) :=
  match findById db document_id with
  | none => .error .notFound
  | some document =>
    let documents_to_delete :=
      if cascade then lineageRows db (resolveRoot document) else [document]
    let delIds := documents_to_delete.map (fun d => d.id)
    let db1 := db.filter (fun d => !(delIds.contains d.id))
    let fs1 := fs.filter (fun e =>
      !(documents_to_delete.any (fun d => d.file_path == e.1 && removeOk e.1)))
    .ok (db1, fs1, documents_to_delete.length)

/-- Database component of a successful mutating call. -/
def okDb (r : Except Err (DB × FS × Doc)) : Option DB :=
  r.toOption.map (fun x => x.1)

/-- File-store component of a successful mutating call. -/
def okFs (r : Except Err (DB × FS × Doc)) : Option FS :=
  r.toOption.map (fun x => x.2.1)

/-- Returned row of a successful mutating call. -/
def okDoc (r : Except Err (DB × FS × Doc)) : Option Doc :=
  r.toOption.map (fun x => x.2.2)

/-- Bytes served by `get_document_version` followed by `/download` of the
returned row's file. -/
def contentOfVersion (db : DB) (fs : FS) (document_id : Nat)
    (version_number : Nat) : Option Content :=
  match getDocumentVersion db document_id version_number with
  | .error _ => none
  | .ok v => getBlob fs v.file_path

/-! Concrete two-version scenario.  A lineage is created by one
`uploadDocument` and one `uploadNewVersion`: version 1 is the root (no
longer latest), version 2 is the current latest.  `scenario_reachable`
below checks that the listed rows are exactly the ones those two calls
produce. -/

/-- Concrete digest stand-in used only to instantiate closed scenarios;
the abstract parameter `H` of the operations is never constrained. -/
def demoHash (c : Content) : Nat :=
  c.foldl (fun a b => a * 257 + b + 1) 1

/-- Bytes of version 1 in the two-version scenario. -/
def contentA : Content := [10, 11]

/-- Bytes of version 2 in the two-version scenario. -/
def contentB : Content := [20]

/-- Version-1 row of the scenario lineage: produced by `uploadDocument`
and flagged non-latest by the subsequent `uploadNewVersion`. -/
def docV1 : Doc :=
  { id := 1
    title := "T"
    description := none
    file_path := "p1"
    file_type := ".txt"
    file_size := 2
    mime_type := none
    document_type := none
    tags := []
    extra_metadata := none
    project_id := some 3
    experiment_id := none
    uploaded_by := 9
    version_number := 1
    is_latest := false
    parent_document_id := none
    version_comment := none
    file_hash := some (demoHash contentA) }

/-- Version-2 row of the scenario lineage: produced by
`uploadNewVersion`, currently latest. -/
def docV2 : Doc :=
  { id := 2
    title := "T"
    description := none
    file_path := "p2"
    file_type := ".txt"
    file_size := 1
    mime_type := none
    document_type := none
    tags := []
    extra_metadata := none
    project_id := some 3
    experiment_id := none
    uploaded_by := 9
    version_number := 2
    is_latest := true
    parent_document_id := some 1
    version_comment := none
    file_hash := some (demoHash contentB) }

/-- Scenario table after create then branch. -/
def db2 : DB := [docV1, docV2]

/-- Scenario file store after create then branch (newest write first). -/
def fs2 : FS := [("p2", contentB), ("p1", contentA)]

/-- Reachability of the scenario state: a create on an empty system
followed by a branch on the returned id produces exactly `db2` and
`fs2`. -/
theorem scenario_reachable :
    uploadDocument demoHash [] [] ("a.txt") contentA none ("T") none none 3
        none none 9 ("p1") =
      .ok ([{ docV1 with is_latest := true }], [(("p1"), contentA)],
        { docV1 with is_latest := true }) ∧
    uploadNewVersion demoHash [{ docV1 with is_latest := true }]
        [(("p1"), contentA)] 1 ("a.txt") contentB none none 9 ("p2") =
      .ok (db2, fs2, docV2) := by
  exact ⟨rfl, rfl⟩

/-- C1 — code bug.  The single-latest invariant is broken by the code:
restoring version 1 of the two-version lineage looks the current latest
up through `parent_document_id == None` (IS NULL), misses the real
latest (whose parent is the root id), flips nothing, and inserts a
second row flagged latest: the lineage ends with TWO latest rows.  The
repository's own test (`test_restore_document_version`) expects this
restore to yield version 3 with a single latest row. -/
theorem c1_restore_v1_breaks_single_latest :
    (okDb (restoreDocumentVersion db2 fs2 1 1 9 ("p3"))).map
      (fun db => (latestOf db 1).length) = some 2 := by
  rfl

/-- C2 — code bug.  Same failing input: after restoring version 1, the
lineage's version numbers are 1, 2, 2 — a duplicate, not the contiguous
strictly increasing sequence the claim states, because the fallback
assigns `target.version_number + 1` instead of `latest.version_number + 1`. -/
theorem c2_restore_v1_duplicates_version_number :
    (okDb (restoreDocumentVersion db2 fs2 1 1 9 ("p3"))).map
      (fun db => (lineageRows db 1).map (fun d => d.version_number)) =
      some [1, 2, 2] := by
  rfl

/-- C3 — code bug.  Same failing input: the restore of version 1 reports
new version number 2, but fetching version 2 afterwards returns the OLD
version-2 row (the first match), whose bytes are `contentB`, not the
restored bytes `contentA` of version 1: the restore round-trip law
fails. -/
theorem c3_restore_round_trip_fails :
    (okDoc (restoreDocumentVersion db2 fs2 1 1 9 ("p3"))).map
      (fun d => d.version_number) = some 2 ∧
    ((okDb (restoreDocumentVersion db2 fs2 1 1 9 ("p3"))).bind (fun db =>
      (okFs (restoreDocumentVersion db2 fs2 1 1 9 ("p3"))).bind (fun fs =>
        contentOfVersion db fs 1 2))) = some contentB ∧
    ((okDb (restoreDocumentVersion db2 fs2 1 1 9 ("p3"))).bind (fun db =>
      (okFs (restoreDocumentVersion db2 fs2 1 1 9 ("p3"))).bind (fun fs =>
        contentOfVersion db fs 1 1))) = some contentA ∧
    contentA ≠ contentB := by
  refine ⟨rfl, rfl, rfl, by decide⟩

/-- C5 — code bug.  The branch lookup filters on
`id == document_id AND is_latest`, so branching on the lineage ROOT id
of the two-version lineage answers NotFound even though the lineage has
a latest version (`docV2`); the repository's own test
(`test_get_document_versions`) branches on the root id a second time and
expects success. -/
theorem c5_branch_on_root_id_not_found :
    uploadNewVersion demoHash db2 fs2 1 ("a.txt") contentB none none 9 ("p3") =
      .error .notFound ∧
    latestOf db2 1 = [docV2] := by
  exact ⟨rfl, rfl⟩

/-- Version-2 row whose stored hash does not match its stored bytes. -/
def docV2bad : Doc := { docV2 with file_hash := some (demoHash contentB + 1) }

/-- Scenario table carrying the corrupt hash on version 2. -/
def dbBad : DB := [docV1, docV2bad]

/-- C4 — counterexample.  The stored bytes of version 2 do not match its
stored hash, yet restoring version 2 succeeds — no integrity
re-verification and no IntegrityError exist in the code path — and the
stale hash is copied into the new row unchanged. -/
theorem c4_no_integrity_check_counterexample :
    getBlob fs2 docV2bad.file_path = some contentB ∧
    docV2bad.file_hash ≠ some (demoHash contentB) ∧
    (restoreDocumentVersion dbBad fs2 1 2 9 ("p3")).isOk = true ∧
    (okDoc (restoreDocumentVersion dbBad fs2 1 2 9 ("p3"))).map
      (fun d => d.file_hash) = some (some (demoHash contentB + 1)) := by
  refine ⟨rfl, by decide, rfl, rfl⟩

/-- C4 — amended claim.  Restore performs no integrity verification: it
copies the target version's stored bytes into a new blob entry and the
stored `file_hash` into the new row unchanged; when the target's stored
file is missing, the copy fails with a storage error (500) and no row is
committed. -/
theorem c4_restore_copies_hash_unverified (db : DB) (fs : FS)
    (document_id version_number uploader : Nat) (newPath : String) (v : Doc)
    (h : getDocumentVersion db document_id version_number = .ok v) :
    (getBlob fs v.file_path = none →
      restoreDocumentVersion db fs document_id version_number uploader newPath =
        .error .storageError) ∧
    (∀ c, getBlob fs v.file_path = some c →
      (restoreDocumentVersion db fs document_id version_number uploader newPath).isOk = true ∧
      (okDoc (restoreDocumentVersion db fs document_id version_number uploader newPath)).map
        (fun d => d.file_hash) = some v.file_hash ∧
      ((okFs (restoreDocumentVersion db fs document_id version_number uploader newPath)).bind
        (fun fs1 =>
          (okDoc (restoreDocumentVersion db fs document_id version_number uploader newPath)).bind
            (fun d => getBlob fs1 d.file_path))) = some c) := by
  constructor
  · intro hb
    simp [restoreDocumentVersion, h, hb]
  · intro c hb
    refine ⟨?_, ?_, ?_⟩ <;>
      · simp only [restoreDocumentVersion, h, hb]
        simp [okDoc, okFs, getBlob, Except.isOk, Except.toBool, Except.toOption]

/-- C4 — witness: the amended statement applied to restoring version 2 of
the concrete two-version lineage. -/
theorem c4_restore_copies_hash_unverified_witness :
    (restoreDocumentVersion db2 fs2 1 2 9 ("p3")).isOk = true ∧
    (okDoc (restoreDocumentVersion db2 fs2 1 2 9 ("p3"))).map
      (fun d => d.file_hash) = some docV2.file_hash ∧
    ((okFs (restoreDocumentVersion db2 fs2 1 2 9 ("p3"))).bind (fun fs1 =>
      (okDoc (restoreDocumentVersion db2 fs2 1 2 9 ("p3"))).bind
        (fun d => getBlob fs1 d.file_path))) = some contentB :=
  (c4_restore_copies_hash_unverified db2 fs2 1 2 9 ("p3") docV2 rfl).2 contentB rfl

/-- Metadata fields the spec lists as copied forward on branch/restore. -/
def metaTuple (d : Doc) :
    String × Option String × Option String × List String ×
      Option (List (String × String)) × Option Nat × Option Nat :=
  (d.title, d.description, d.document_type, d.tags, d.extra_metadata,
    d.project_id, d.experiment_id)

/-- C6 — counterexample.  A branch performed by user 8 on the scenario
lineage, whose latest version was uploaded by user 9, records uploader 8
on the new row: the uploader is not copied from the source version. -/
theorem c6_uploader_not_copied :
    (okDoc (uploadNewVersion demoHash db2 fs2 2 ("a.txt") contentB none none 8 ("p3"))).map
      (fun d => d.uploaded_by) = some 8 ∧
    docV2.uploaded_by = 9 :=
  ⟨rfl, rfl⟩

/-- C6 — amended claim.  Branch and restore copy title, description,
document type, tags, extra metadata and the owning project/experiment
from the source version (the addressed latest row for branch, the target
version for restore); the uploader of the new row is the calling user,
not the source version's uploader; neither operation accepts metadata
overrides. -/
theorem c6_metadata_copy_forward :
    (∀ (H : Content → Nat) (db : DB) (fs : FS) (document_id : Nat)
        (filename : String) (content : Content) (mime : Option String)
        (version_comment : Option String) (uploader : Nat) (newPath : String),
      (uploadNewVersion H db fs document_id filename content mime version_comment uploader newPath).isOk = true →
      (okDoc (uploadNewVersion H db fs document_id filename content mime version_comment uploader newPath)).map metaTuple =
        (db.find? (fun d => d.id == document_id && d.is_latest)).map metaTuple ∧
      (okDoc (uploadNewVersion H db fs document_id filename content mime version_comment uploader newPath)).map
        (fun d => d.uploaded_by) = some uploader) ∧
    (∀ (db : DB) (fs : FS) (document_id version_number uploader : Nat)
        (newPath : String),
      (restoreDocumentVersion db fs document_id version_number uploader newPath).isOk = true →
      (okDoc (restoreDocumentVersion db fs document_id version_number uploader newPath)).map metaTuple =
        (getDocumentVersion db document_id version_number).toOption.map metaTuple ∧
      (okDoc (restoreDocumentVersion db fs document_id version_number uploader newPath)).map
        (fun d => d.uploaded_by) = some uploader) := by
  constructor
  · intro H db fs document_id filename content mime version_comment uploader newPath hok
    cases hf : db.find? (fun d => d.id == document_id && d.is_latest) with
    | none => simp [uploadNewVersion, hf, Except.isOk, Except.toBool] at hok
    | some cur =>
      by_cases hv : is_valid_file_type filename
      · constructor <;>
          simp [uploadNewVersion, hf, hv, okDoc, Except.toOption, metaTuple]
      · simp [uploadNewVersion, hf, hv, Except.isOk, Except.toBool] at hok
  · intro db fs document_id version_number uploader newPath hok
    cases hg : getDocumentVersion db document_id version_number with
    | error e => simp [restoreDocumentVersion, hg, Except.isOk, Except.toBool] at hok
    | ok v =>
      cases hb : getBlob fs v.file_path with
      | none =>
        rw [show restoreDocumentVersion db fs document_id version_number uploader newPath = .error .storageError by simp [restoreDocumentVersion, hg, hb]] at hok
        simp [Except.isOk, Except.toBool] at hok
      | some c =>
        constructor <;>
          · simp only [restoreDocumentVersion, hg, hb]
            simp [okDoc, Except.toOption, metaTuple]

/-- C6 — witness: the amended statement applied to a branch by user 8 on
the latest row of the concrete lineage and a restore by user 8 of its
version 2. -/
theorem c6_metadata_copy_forward_witness :
    ((okDoc (uploadNewVersion demoHash db2 fs2 2 ("a.txt") contentB none none 8 ("p3"))).map metaTuple =
      (db2.find? (fun d => d.id == 2 && d.is_latest)).map metaTuple ∧
     (okDoc (uploadNewVersion demoHash db2 fs2 2 ("a.txt") contentB none none 8 ("p3"))).map
        (fun d => d.uploaded_by) = some 8) ∧
    ((okDoc (restoreDocumentVersion db2 fs2 1 2 8 ("p3"))).map metaTuple =
      (getDocumentVersion db2 1 2).toOption.map metaTuple ∧
     (okDoc (restoreDocumentVersion db2 fs2 1 2 8 ("p3"))).map
        (fun d => d.uploaded_by) = some 8) :=
  ⟨c6_metadata_copy_forward.1 demoHash db2 fs2 2 ("a.txt") contentB none none 8 ("p3") rfl,
   c6_metadata_copy_forward.2 db2 fs2 1 2 8 ("p3") rfl⟩

/-- Membership of a row in its own resolved lineage. -/
theorem mem_lineage_self (db : DB) (d : Doc) (hd : d ∈ db) :
    d ∈ lineageRows db (resolveRoot d) := by
  rw [lineageRows, List.mem_filter]
  refine ⟨hd, ?_⟩
  cases hp : d.parent_document_id with
  | none => simp [resolveRoot, hp]
  | some r => simp [resolveRoot, hp]

/-- Rows surviving a cascade delete addressed at a row of `d`'s lineage. -/
def dbAfterCascade (db : DB) (d : Doc) : DB :=
  db.filter (fun r =>
    !(((lineageRows db (resolveRoot d)).map (fun x => x.id)).contains r.id))

/-- Files surviving the best-effort blob removals of a cascade delete. -/
def fsAfterCascade (db : DB) (fs : FS) (removeOk : String → Bool) (d : Doc) : FS :=
  fs.filter (fun e =>
    !((lineageRows db (resolveRoot d)).any (fun x => x.file_path == e.1 && removeOk e.1)))

/-- C7 — cascade delete removes every row of the addressed lineage and
returns their count (k rows in, deleted-count k out); the surviving rows
and the count do not depend on which blob removals succeed (failures are
only logged); a subsequent version listing on the same id fails
NotFound. -/
theorem c7_cascade_delete (db : DB) (fs : FS)
    (removeOk removeOk1 : String → Bool) (document_id : Nat) (d : Doc)
    (h : findById db document_id = some d) :
    deleteDocument db fs removeOk document_id true =
      .ok (dbAfterCascade db d, fsAfterCascade db fs removeOk d,
        (lineageRows db (resolveRoot d)).length) ∧
    deleteDocument db fs removeOk1 document_id true =
      .ok (dbAfterCascade db d, fsAfterCascade db fs removeOk1 d,
        (lineageRows db (resolveRoot d)).length) ∧
    lineageRows (dbAfterCascade db d) (resolveRoot d) = [] ∧
    getDocumentVersions (dbAfterCascade db d) document_id = .error .notFound := by
  have h' : db.find? (fun x => x.id == document_id) = some d := h
  have hdid : (d.id == document_id) = true :=
    @List.find?_some Doc (fun x => x.id == document_id) d db h'
  have hdmem : d ∈ db :=
    @List.mem_of_find?_eq_some Doc (fun x => x.id == document_id) d db h'
  have hself : d ∈ lineageRows db (resolveRoot d) := mem_lineage_self db d hdmem
  have hnone : findById (dbAfterCascade db d) document_id = none := by
    rw [findById, List.find?_eq_none]
    intro r hr
    rw [dbAfterCascade, List.mem_filter] at hr
    obtain ⟨hrdb, hkeep⟩ := hr
    intro hrid
    have hidmem : d.id ∈ (lineageRows db (resolveRoot d)).map (fun x => x.id) :=
      List.mem_map_of_mem (fun x => x.id) hself
    have : r.id = document_id := by simpa using hrid
    have hdid' : d.id = document_id := by simpa using hdid
    rw [Bool.not_eq_eq_eq_not, Bool.not_true,
      List.contains, ← Bool.not_eq_true, List.elem_iff] at hkeep
    exact hkeep (by rw [this, ← hdid']; exact hidmem)
  refine ⟨?_, ?_, ?_, ?_⟩
  · simp [deleteDocument, h, dbAfterCascade, fsAfterCascade]
  · simp [deleteDocument, h, dbAfterCascade, fsAfterCascade]
  · rw [lineageRows, List.filter_eq_nil_iff]
    intro r hr
    rw [dbAfterCascade, List.mem_filter] at hr
    obtain ⟨hrdb, hkeep⟩ := hr
    intro hlin
    have hrmem : r ∈ lineageRows db (resolveRoot d) :=
      List.mem_filter.mpr ⟨hrdb, hlin⟩
    have : r.id ∈ (lineageRows db (resolveRoot d)).map (fun x => x.id) :=
      List.mem_map_of_mem (fun x => x.id) hrmem
    rw [Bool.not_eq_eq_eq_not, Bool.not_true,
      List.contains, ← Bool.not_eq_true, List.elem_iff] at hkeep
    exact hkeep this
  · rw [getDocumentVersions, hnone]

/-- C7 — witness state: a three-version lineage (the root and two later
versions, the last one latest). -/
def docV3 : Doc :=
  { docV2 with
    id := 3
    file_path := "p3"
    version_number := 3
    is_latest := true }

/-- Witness table: three-version lineage rooted at id 1. -/
def db3 : DB := [docV1, { docV2 with is_latest := false }, docV3]

/-- C7 — witness: cascade delete of the three-version lineage returns
deleted-count 3, leaves no lineage row, and the subsequent listing fails
NotFound; the surviving rows agree whether every blob removal fails or
every one succeeds. -/
theorem c7_cascade_delete_witness :
    deleteDocument db3 fs2 (fun _ => false) 1 true =
      .ok (dbAfterCascade db3 docV1, fsAfterCascade db3 fs2 (fun _ => false) docV1, 3) ∧
    deleteDocument db3 fs2 (fun _ => true) 1 true =
      .ok (dbAfterCascade db3 docV1, fsAfterCascade db3 fs2 (fun _ => true) docV1, 3) ∧
    lineageRows (dbAfterCascade db3 docV1) 1 = [] ∧
    getDocumentVersions (dbAfterCascade db3 docV1) 1 = .error .notFound :=
  c7_cascade_delete db3 fs2 (fun _ => false) (fun _ => true) 1 docV1 rfl

/-- C8 — counterexample.  Deleting the root row without cascade leaves an
orphan child, so the lineage still has a row; a version listing addressed
by the root id then fails NotFound: the failure condition is the absence
of the ADDRESSED row, not emptiness of the lineage. -/
theorem c8_list_versions_counterexample :
    deleteDocument db2 fs2 (fun _ => true) 1 false =
      .ok ([docV2], [(("p2"), contentB)], 1) ∧
    getDocumentVersions [docV2] 1 = .error .notFound ∧
    lineageRows [docV2] 1 = [docV2] := by
  refine ⟨rfl, rfl, rfl⟩

/-- Transitivity of the version-number comparison used by the listing. -/
theorem versionLe_trans : ∀ a b c : Doc,
    decide (a.version_number ≤ b.version_number) = true →
    decide (b.version_number ≤ c.version_number) = true →
    decide (a.version_number ≤ c.version_number) = true := by
  intro a b c hab hbc
  simp only [decide_eq_true_eq] at *
  omega

/-- Totality of the version-number comparison used by the listing. -/
theorem versionLe_total : ∀ a b : Doc,
    (decide (a.version_number ≤ b.version_number) ||
      decide (b.version_number ≤ a.version_number)) = true := by
  intro a b
  simpa using Nat.le_total a.version_number b.version_number

/-- C8 — amended claim.  A version listing fails NotFound exactly when no
row with the ADDRESSED id exists; when the addressed row exists, the
result is a permutation of its resolved lineage's rows, ordered by
version number ascending.  The embedding of the operation is a pure
function of the table, so repeated calls without intervening writes are
identical by reflexivity. -/
theorem c8_list_versions (db : DB) (document_id : Nat) :
    (getDocumentVersions db document_id = .error .notFound ↔
      findById db document_id = none) ∧
    (∀ d, findById db document_id = some d →
      getDocumentVersions db document_id =
        .ok (sortedLineage db (resolveRoot d)) ∧
      (sortedLineage db (resolveRoot d)).Perm (lineageRows db (resolveRoot d)) ∧
      (sortedLineage db (resolveRoot d)).Pairwise
        (fun a b => a.version_number ≤ b.version_number)) := by
  constructor
  · constructor
    · intro he
      cases hf : findById db document_id with
      | none => rfl
      | some d => rw [getDocumentVersions, hf] at he; exact absurd he (by simp)
    · intro hn
      rw [getDocumentVersions, hn]
  · intro d hf
    refine ⟨by rw [getDocumentVersions, hf], ?_, ?_⟩
    · exact List.mergeSort_perm _ _
    · exact (List.sorted_mergeSort versionLe_trans versionLe_total
        (lineageRows db (resolveRoot d))).imp (fun hab => by simpa using hab)

/-- C8 — witness: the amended statement applied to the concrete lineage,
addressed by the id of its version-2 row. -/
theorem c8_list_versions_witness :
    getDocumentVersions db2 2 = .ok (sortedLineage db2 (resolveRoot docV2)) ∧
    (sortedLineage db2 (resolveRoot docV2)).Perm
      (lineageRows db2 (resolveRoot docV2)) ∧
    (sortedLineage db2 (resolveRoot docV2)).Pairwise
      (fun a b => a.version_number ≤ b.version_number) :=
  (c8_list_versions db2 2).2 docV2 rfl

/-- Fields of a row outside the reach of `DocumentUpdate`: identity,
version-control fields, file fields and uploader. -/
def frameFields (d : Doc) :
    Nat × Nat × Bool × Option Nat × Option String × Option Nat ×
      String × String × Nat × Option String × Nat :=
  (d.id, d.version_number, d.is_latest, d.parent_document_id,
    d.version_comment, d.file_hash, d.file_path, d.file_type, d.file_size,
    d.mime_type, d.uploaded_by)

/-- C9 — frame property of PATCH update: only title, description, document
type, tags and extra metadata can change; the identity, version-control,
file and uploader fields of the updated row are unchanged, and every row
with a different id survives unchanged. -/
theorem c9_update_frame (db : DB) (document_id : Nat) (u : DocumentUpdate)
    (d : Doc) (h : findById db document_id = some d) :
    updateDocument db document_id u =
      .ok (db.map (fun r => if r.id == document_id then applyUpdate d u else r),
        applyUpdate d u) ∧
    frameFields (applyUpdate d u) = frameFields d ∧
    ∀ r, r ∈ db → ¬ r.id = document_id →
      r ∈ db.map (fun r => if r.id == document_id then applyUpdate d u else r) := by
  refine ⟨by rw [updateDocument, h], rfl, ?_⟩
  intro r hr hne
  refine List.mem_map.mpr ⟨r, hr, ?_⟩
  simp [hne]

/-- C9 — witness: a title-only update of the root row of the concrete
lineage. -/
theorem c9_update_frame_witness :
    updateDocument db2 1 { title := some ("S") } =
      .ok (db2.map (fun r =>
          if r.id == 1 then applyUpdate docV1 { title := some ("S") } else r),
        applyUpdate docV1 { title := some ("S") }) ∧
    frameFields (applyUpdate docV1 { title := some ("S") }) = frameFields docV1 :=
  ⟨(c9_update_frame db2 1 { title := some ("S") } docV1 rfl).1,
   (c9_update_frame db2 1 { title := some ("S") } docV1 rfl).2.1⟩

/-- A lookup by primary key returns the member row itself when the table's
ids are pairwise distinct. -/
theorem findById_of_mem (db : DB) (v : Doc) (hv : v ∈ db)
    (hids : (db.map (fun d => d.id)).Nodup) : findById db v.id = some v := by
  induction db with
  | nil => cases hv
  | cons a t ih =>
    rw [List.map_cons, List.nodup_cons] at hids
    obtain ⟨ha, ht⟩ := hids
    rcases List.mem_cons.mp hv with rfl | hvt
    · simp [findById]
    · have hne : ¬ a.id = v.id := by
        intro he
        exact ha (he ▸ List.mem_map_of_mem (fun d => d.id) hvt)
      rw [findById, List.find?_cons_of_neg]
      · exact ih hvt ht
      · simp [hne]

/-- C10 — lineage resolution: version listing and single-version fetch
accept the id of ANY row of a lineage, resolving the root as
`parent_document_id` when set, else the row's own id; two rows of the
same table that resolve to the same root give identical answers, and the
listing succeeds. -/
theorem c10_lineage_resolution (db : DB) (v w : Doc) (hv : v ∈ db)
    (hw : w ∈ db) (hids : (db.map (fun d => d.id)).Nodup)
    (hroot : resolveRoot v = resolveRoot w) :
    getDocumentVersions db v.id = getDocumentVersions db w.id ∧
    (getDocumentVersions db v.id).isOk = true ∧
    ∀ n, getDocumentVersion db v.id n = getDocumentVersion db w.id n := by
  have hfv := findById_of_mem db v hv hids
  have hfw := findById_of_mem db w hw hids
  refine ⟨?_, ?_, ?_⟩
  · simp only [getDocumentVersions, hfv, hfw, hroot]
  · rw [getDocumentVersions, hfv]
    rfl
  · intro n
    simp only [getDocumentVersion, hfv, hfw, hroot]

/-- C10 — witness: the root row and the version-2 row of the concrete
lineage address the same listing and the same version fetch. -/
theorem c10_lineage_resolution_witness :
    getDocumentVersions db2 1 = getDocumentVersions db2 2 ∧
    getDocumentVersion db2 1 2 = getDocumentVersion db2 2 2 := by
  have h := c10_lineage_resolution db2 docV1 docV2 (by simp [db2])
    (by simp [db2]) (by decide) rfl
  exact ⟨h.1, h.2.2 2⟩

end LabWeave
